import Mathlib

/-!
Shallow embedding of `src/server.py` (a FastAPI URL shortener backed by a
MongoDB collection) and proofs of the specification's claims about it.

Modelling choices, each tied to a line of the source:

* The MongoDB collection `URL_Collection` is a `List Doc` in insertion
  order; `find_one` with filter `{short_url: code}` is `List.find?` on the
  `short_url` field (Mongo returns the first match in natural order), and
  `insert_one` appends.
* `random.choice(base62)` (line 56) always returns an element of the
  alphabet; the stream of random draws is an explicit parameter
  `choice : Nat → Fin 62`.
* The two `datetime.now(timezone.utc)` calls (lines 90-91) are two explicit
  timestamp parameters `now1 now2 : Nat`, in the order the source makes the
  calls.
* The `validators.url` check (line 67) is an external library; it enters the
  model as a parameter `validator : String → Bool`.
* The `while curr_url:` regeneration loop (lines 79-85) has no bound in the
  source; it is embedded with fuel: `none` means the loop has not produced a
  result within the given number of attempts.
-/

/-- Alphabet used by `generate_id`: `string.ascii_letters + string.digits`
(lower-case letters, then upper-case letters, then digits; 62 symbols). -/
def base62 : List Char :=
  "abcdefghijklmnopqrstuvwxyzABCDEFGHIJKLMNOPQRSTUVWXYZ0123456789".toList

theorem base62_length : base62.length = 62 := by decide

/-- Embedding of `generate_id` (lines 50-56): joins `length` draws of
`random.choice(base62)`; draw `i` is `choice i`. The source's default
argument is `length=7` and every call site uses it. -/
def generate_id (choice : Nat → Fin 62) (length : Nat) : String :=
  String.mk ((List.range length).map fun i => base62.get (Fin.cast base62_length.symm (choice i)))

/-- Document stored in `URL_Collection` (lines 87-92). Timestamps are
abstract instants, modelled as `Nat`. -/
structure Doc where
  original_url : String
  short_url : String
  created_at : Nat
  updated_at : Nat
deriving Repr, DecidableEq

/-- The mongo collection in insertion order. -/
abbrev Store := List Doc

/-- Embedding of `find_one(filter={"short_url": code})` (lines 76, 85, 117):
first document whose `short_url` equals the code, or `none`. -/
def find_one (store : Store) (code : String) : Option Doc :=
  store.find? (fun d => d.short_url == code)

/-- Embedding of `insert_one(document)` (line 93): appends the document. -/
def insert_one (store : Store) (d : Doc) : Store :=
  store ++ [d]

/-- Embedding of lines 71-85: generate an id, and `while curr_url:`
regenerate. `gen k` is the result of the `(k+1)`-th `generate_id()` call.
The source's loop is unbounded, so the embedding takes fuel; `none` means
the loop is still running after `fuel` attempts. -/
def retry_loop (gen : Nat → String) (store : Store) : Nat → Nat → Option String
  | _, 0 => none
  | k, fuel + 1 =>
    if (find_one store (gen k)).isSome then retry_loop gen store (k + 1) fuel
    else some (gen k)

/-- Embedding of the store-touching part of `url_shorten` (lines 71-93),
after URL validation has passed: run the generation loop, then build the
document (lines 87-92, with `created_at` from the first `datetime.now` call
and `updated_at` from the second) and insert it. Returns the accepted code
and the new store, or `none` when the loop has not terminated within
`fuel` attempts. -/
def url_shorten_core (gen : Nat → String) (now1 now2 : Nat) (url : String)
    (store : Store) (fuel : Nat) : Option (String × Store) :=
  match retry_loop gen store 0 fuel with
  | none => none
  | some code =>
      some (code, insert_one store ⟨url, code, now1, now2⟩)

/-- Outcome of the `/url/shorten` endpoint. -/
inductive ShortenResult where
  /-- `HTTPException(status_code=400, ...)` from line 69. -/
  | badRequest (detail : String)
  /-- `JSONResponse` with status 201 whose `short_url` field is the given
  string (lines 95-99). -/
  | created (short_url : String)
deriving Repr, DecidableEq

/-- Embedding of the `url_shorten` endpoint (lines 61-99): reject invalid
URLs with a 400 before touching the store, otherwise run the core and
answer 201 with `short_url = f"{host}/r/{id}"` (line 97), where `host` is
the request's Host header (line 95). -/
def url_shorten (validator : String → Bool) (gen : Nat → String) (now1 now2 : Nat)
    (host url : String) (store : Store) (fuel : Nat) :
    Option (ShortenResult × Store) :=
  if validator url then
    match url_shorten_core gen now1 now2 url store fuel with
    | none => none
    | some (code, store') =>
        some (ShortenResult.created (host ++ "/r/" ++ code), store')
  else
    some (ShortenResult.badRequest (url ++ " is not a valid url"), store)

/-- Outcome of the `/r/{short_url}` endpoint. -/
inductive ResolveResult where
  /-- `HTTPException(status_code=404, ...)` from line 121. -/
  | notFound (detail : String)
  /-- `RedirectResponse(url=...)` from line 124. -/
  | redirect (url : String)
deriving Repr, DecidableEq

/-- Embedding of the `url_resolve` endpoint (lines 106-124): one point
lookup; 404 when absent, redirect to the stored `original_url` when
present. The store is threaded through unchanged because `find_one` is the
only database operation the handler performs. -/
def url_resolve (short_url : String) (store : Store) : ResolveResult × Store :=
  match find_one store short_url with
  | none => (ResolveResult.notFound (short_url ++ " not found"), store)
  | some d => (ResolveResult.redirect d.original_url, store)

/-- Short codes present in the store, in insertion order. -/
def codes (store : Store) : List String :=
  store.map (·.short_url)

/-! ### Basic lemmas about the embedded operations -/

theorem find_one_eq_none_iff (store : Store) (code : String) :
    find_one store code = none ↔ code ∉ codes store := by
  induction store with
  | nil => simp [find_one, codes]
  | cons d tl ih =>
      by_cases h : d.short_url = code
      · simp [find_one, codes, h]
      · have hb : (d.short_url == code) = false := by
          simpa using h
        simp only [find_one, codes, List.find?, hb, List.map_cons, List.mem_cons]
        rw [show (List.find? (fun d => d.short_url == code) tl = none ↔
            code ∉ codes tl) from ih]
        constructor
        · intro hn hc
          rcases hc with hc | hc
          · exact h hc.symm
          · exact hn hc
        · intro hn hc
          exact hn (Or.inr hc)

theorem find_one_append_singleton (store : Store) (d : Doc) (code : String)
    (h : find_one store code = none) :
    find_one (store ++ [d]) code =
      if d.short_url == code then some d else none := by
  induction store with
  | nil => simp [find_one]
  | cons e tl ih =>
      by_cases he : (e.short_url == code) = true
      · simp [find_one, List.find?, he] at h
      · have h' : find_one tl code = none := by
          simpa [find_one, List.find?, he] using h
        have := ih h'
        simpa [find_one, List.find?, he] using this

theorem retry_loop_fresh (gen : Nat → String) (store : Store) :
    ∀ fuel k code, retry_loop gen store k fuel = some code →
      find_one store code = none := by
  intro fuel
  induction fuel with
  | zero => intro k code h; simp [retry_loop] at h
  | succ n ih =>
      intro k code h
      by_cases hc : (find_one store (gen k)).isSome
      · exact ih (k + 1) code (by simpa [retry_loop, hc] using h)
      · have hcode : gen k = code := by simpa [retry_loop, hc] using h
        subst hcode
        exact Option.not_isSome_iff_eq_none.mp hc

theorem retry_loop_mem (gen : Nat → String) (store : Store) :
    ∀ fuel k code, retry_loop gen store k fuel = some code →
      ∃ j, code = gen j := by
  intro fuel
  induction fuel with
  | zero => intro k code h; simp [retry_loop] at h
  | succ n ih =>
      intro k code h
      by_cases hc : (find_one store (gen k)).isSome
      · exact ih (k + 1) code (by simpa [retry_loop, hc] using h)
      · exact ⟨k, by simpa [retry_loop, hc] using h.symm⟩

theorem url_shorten_core_eq (gen : Nat → String) (now1 now2 : Nat) (url : String)
    (store : Store) (fuel : Nat) (code : String) (store' : Store)
    (h : url_shorten_core gen now1 now2 url store fuel = some (code, store')) :
    find_one store code = none ∧
      store' = store ++ [⟨url, code, now1, now2⟩] := by
  unfold url_shorten_core at h
  cases hr : retry_loop gen store 0 fuel with
  | none => rw [hr] at h; exact absurd h (by simp)
  | some c =>
      rw [hr] at h
      have hc : c = code ∧ insert_one store ⟨url, c, now1, now2⟩ = store' := by
        simpa using h
      rcases hc with ⟨rfl, hs⟩
      exact ⟨retry_loop_fresh gen store fuel 0 c hr, by simpa [insert_one] using hs.symm⟩

theorem url_shorten_core_code_mem (gen : Nat → String) (now1 now2 : Nat) (url : String)
    (store : Store) (fuel : Nat) (code : String) (store' : Store)
    (h : url_shorten_core gen now1 now2 url store fuel = some (code, store')) :
    ∃ j, code = gen j := by
  unfold url_shorten_core at h
  cases hr : retry_loop gen store 0 fuel with
  | none => rw [hr] at h; exact absurd h (by simp)
  | some c =>
      rw [hr] at h
      have hc : c = code ∧ insert_one store ⟨url, c, now1, now2⟩ = store' := by
        simpa using h
      exact hc.1 ▸ retry_loop_mem gen store fuel 0 c hr

theorem retry_loop_all_collide (gen : Nat → String) (store : Store)
    (h : ∀ j, (find_one store (gen j)).isSome = true) :
    ∀ fuel k, retry_loop gen store k fuel = none := by
  intro fuel
  induction fuel with
  | zero => intro k; rfl
  | succ n ih => intro k; simp [retry_loop, h k, ih (k + 1)]

theorem generate_id_shape (choice : Nat → Fin 62) (len : Nat) :
    (generate_id choice len).length = len ∧
      ∀ a ∈ (generate_id choice len).data, a ∈ base62 := by
  constructor
  · show ((List.range len).map _).length = len
    simp
  · intro a ha
    have ha' : a ∈ (List.range len).map
        (fun i => base62.get (Fin.cast base62_length.symm (choice i))) := ha
    rcases List.mem_map.mp ha' with ⟨i, _, rfl⟩
    exact List.get_mem _ _ _

/-- One call to the shorten endpoint after validation: its stream of
`generate_id` results, the two `datetime.now` readings, the URL, and the
fuel made available to the (unbounded) regeneration loop. -/
structure AllocCall where
  gen : Nat → String
  now1 : Nat
  now2 : Nat
  url : String
  fuel : Nat

/-- Run a sequence of shorten calls one after the other, collecting the
accepted short codes; `none` as soon as one call fails to terminate within
its fuel. -/
def run_allocs : List AllocCall → Store → Option (List String × Store)
  | [], store => some ([], store)
  | call :: rest, store =>
      match url_shorten_core call.gen call.now1 call.now2 call.url store call.fuel with
      | none => none
      | some (c, store1) =>
          match run_allocs rest store1 with
          | none => none
          | some (cs, store2) => some (c :: cs, store2)

theorem run_allocs_codes (calls : List AllocCall) :
    ∀ store cs store', run_allocs calls store = some (cs, store') →
      codes store' = codes store ++ cs := by
  induction calls with
  | nil =>
      intro store cs store' h
      have h' : [] = cs ∧ store = store' := by simpa [run_allocs] using h
      rcases h' with ⟨rfl, rfl⟩
      simp
  | cons call rest ih =>
      intro store cs store' h
      cases hc : url_shorten_core call.gen call.now1 call.now2 call.url store call.fuel with
      | none => simp only [run_allocs, hc] at h; exact absurd h (by simp)
      | some p =>
          obtain ⟨c, store1⟩ := p
          cases hr : run_allocs rest store1 with
          | none => simp only [run_allocs, hc, hr] at h; exact absurd h (by simp)
          | some q =>
              obtain ⟨cs1, store2⟩ := q
              simp only [run_allocs, hc, hr, Option.some.injEq, Prod.mk.injEq] at h
              rcases h with ⟨rfl, rfl⟩
              obtain ⟨_, rfl⟩ := url_shorten_core_eq _ _ _ _ _ _ _ _ hc
              have h1 := ih _ _ _ hr
              rw [h1]
              simp [codes]

theorem run_allocs_nodup (calls : List AllocCall) :
    ∀ store cs store', run_allocs calls store = some (cs, store') →
      (codes store).Nodup → (codes store').Nodup := by
  induction calls with
  | nil =>
      intro store cs store' h hn
      have h' : [] = cs ∧ store = store' := by simpa [run_allocs] using h
      rcases h' with ⟨rfl, rfl⟩
      exact hn
  | cons call rest ih =>
      intro store cs store' h hn
      cases hc : url_shorten_core call.gen call.now1 call.now2 call.url store call.fuel with
      | none => simp only [run_allocs, hc] at h; exact absurd h (by simp)
      | some p =>
          obtain ⟨c, store1⟩ := p
          cases hr : run_allocs rest store1 with
          | none => simp only [run_allocs, hc, hr] at h; exact absurd h (by simp)
          | some q =>
              obtain ⟨cs1, store2⟩ := q
              simp only [run_allocs, hc, hr, Option.some.injEq, Prod.mk.injEq] at h
              rcases h with ⟨rfl, rfl⟩
              obtain ⟨hfresh, rfl⟩ := url_shorten_core_eq _ _ _ _ _ _ _ _ hc
              refine ih _ _ _ hr ?_
              have hmem : c ∉ codes store := (find_one_eq_none_iff store c).mp hfresh
              have : codes (store ++ [⟨call.url, c, call.now1, call.now2⟩]) =
                  codes store ++ [c] := by simp [codes]
              rw [this]
              simp [List.nodup_append, hn, hmem]

/-! ### Claim theorems -/

/-- C1: for every URL `u`, whenever the shorten core succeeds and returns
short code `c` together with the updated store, resolving `c` against that
store redirects to exactly `u`. -/
theorem round_trip_allocate_resolve (gen : Nat → String) (now1 now2 : Nat) (u : String)
    (store : Store) (fuel : Nat) (c : String) (store' : Store)
    (h : url_shorten_core gen now1 now2 u store fuel = some (c, store')) :
    (url_resolve c store').1 = ResolveResult.redirect u := by
  obtain ⟨hfresh, rfl⟩ := url_shorten_core_eq gen now1 now2 u store fuel c store' h
  have hfind : find_one (store ++ [⟨u, c, now1, now2⟩]) c = some ⟨u, c, now1, now2⟩ := by
    rw [find_one_append_singleton store _ c hfresh]
    simp
  simp [url_resolve, hfind]

/-- Witness for C1 at a concrete allocation into the empty store. -/
theorem round_trip_allocate_resolve_witness :
    (url_resolve "AAAAAAA" [⟨"http://example.com", "AAAAAAA", 0, 0⟩]).1 =
      ResolveResult.redirect "http://example.com" :=
  round_trip_allocate_resolve (fun _ => "AAAAAAA") 0 0 "http://example.com" [] 1
    "AAAAAAA" [⟨"http://example.com", "AAAAAAA", 0, 0⟩] rfl

/-- C3 counterexample: the source's regeneration loop (lines 79-85) has no
maximum attempt count and the endpoint has no capacity-failure outcome (the
only outcomes are a 400 for an invalid URL and a 201 on success). At the
spec's own input — one available attempt and a generator that always
produces the already-stored code "AAAAAAA" — the loop is still running after
that attempt (and still after 1000 attempts), instead of terminating with a
CapacityExhausted failure as the claim states. -/
theorem capacity_exhausted_counterexample :
    url_shorten_core (fun _ => "AAAAAAA") 0 0 "http://new.example"
        [⟨"http://orig.example", "AAAAAAA", 0, 0⟩] 1 = none ∧
    url_shorten_core (fun _ => "AAAAAAA") 0 0 "http://new.example"
        [⟨"http://orig.example", "AAAAAAA", 0, 0⟩] 1000 = none := by
  refine ⟨rfl, ?_⟩
  unfold url_shorten_core
  rw [retry_loop_all_collide (fun _ => "AAAAAAA")
      [⟨"http://orig.example", "AAAAAAA", 0, 0⟩] (fun _ => rfl) 1000 0]

/-- C3 amended: the collision-retry loop is unbounded — there is no
configurable maximum attempt count and no CapacityExhausted failure. When
every generated code collides with a stored one, the loop never produces a
result: for every attempt budget `fuel`, after `fuel` attempts the shorten
core is still running (`none`), so an always-colliding generator makes
`Allocate` loop forever instead of failing. -/
theorem unbounded_retry_no_result (gen : Nat → String) (now1 now2 : Nat)
    (u : String) (store : Store)
    (h : ∀ j, (find_one store (gen j)).isSome = true) :
    ∀ fuel, url_shorten_core gen now1 now2 u store fuel = none := by
  intro fuel
  unfold url_shorten_core
  rw [retry_loop_all_collide gen store h fuel 0]

/-- Witness for the amended C3 with a concrete always-colliding generator. -/
theorem unbounded_retry_no_result_witness :
    url_shorten_core (fun _ => "AAAAAAA") 0 0 "http://new.example"
        [⟨"http://orig.example", "AAAAAAA", 0, 0⟩] 5 = none :=
  unbounded_retry_no_result (fun _ => "AAAAAAA") 0 0 "http://new.example"
    [⟨"http://orig.example", "AAAAAAA", 0, 0⟩] (fun _ => rfl) 5

/-- C4: with the store seeded at "AAAAAAA" and the generator yielding
"AAAAAAA" then "BBBBBBB", the shorten core retries past the collision,
persists the new mapping under "BBBBBBB" (appended after the seed), and
looking up "AAAAAAA" afterwards still returns the untouched seeded document
with its original URL and timestamps. -/
theorem collision_retry_preserves_seeded_mapping :
    url_shorten_core (fun k => if k = 0 then "AAAAAAA" else "BBBBBBB") 10 11
        "http://new.example" [⟨"http://orig.example", "AAAAAAA", 1, 2⟩] 2 =
      some ("BBBBBBB",
        [⟨"http://orig.example", "AAAAAAA", 1, 2⟩,
         ⟨"http://new.example", "BBBBBBB", 10, 11⟩]) ∧
    find_one
        [⟨"http://orig.example", "AAAAAAA", 1, 2⟩,
         ⟨"http://new.example", "BBBBBBB", 10, 11⟩] "AAAAAAA" =
      some ⟨"http://orig.example", "AAAAAAA", 1, 2⟩ :=
  ⟨rfl, rfl⟩

/-- C7 counterexample: the source builds the document with two separate
`datetime.now(timezone.utc)` calls (lines 90-91), one for `created_at` and
one for `updated_at`. When the clock advances between the two readings —
here first reading 0, second reading 1 — the shorten core inserts a mapping
whose `updated_at` differs from its `created_at`, so it is not the case
that every mapping constructed by Allocate satisfies
`createdAt = updatedAt`. -/
theorem updated_at_counterexample :
    url_shorten_core (fun _ => "AAAAAAA") 0 1 "http://example.com" [] 1 =
      some ("AAAAAAA", [⟨"http://example.com", "AAAAAAA", 0, 1⟩]) ∧
    (Doc.mk "http://example.com" "AAAAAAA" 0 1).created_at ≠
      (Doc.mk "http://example.com" "AAAAAAA" 0 1).updated_at :=
  ⟨rfl, by decide⟩

/-- C7 amended: Allocate fills `created_at` from the first `datetime.now`
reading and `updated_at` from a second, separate reading taken immediately
after; the two fields coincide exactly when the two readings do. Existing
documents are appended to, never rewritten, and the resolver threads the
store through unchanged, so no operation of the core mutates `updated_at`
after insertion; and whenever the two clock readings are equal, every
document the call adds satisfies `created_at = updated_at`. -/
theorem updated_at_second_reading (gen : Nat → String) (now1 now2 : Nat)
    (u : String) (store : Store) (fuel : Nat) (c : String) (store' : Store)
    (h : url_shorten_core gen now1 now2 u store fuel = some (c, store')) :
    store' = store ++ [⟨u, c, now1, now2⟩] ∧
    (∀ q, (url_resolve q store').2 = store') ∧
    (now1 = now2 → ∀ d ∈ store', d ∉ store → d.created_at = d.updated_at) := by
  obtain ⟨_, rfl⟩ := url_shorten_core_eq gen now1 now2 u store fuel c store' h
  refine ⟨rfl, ?_, ?_⟩
  · intro q
    unfold url_resolve
    cases find_one (store ++ [⟨u, c, now1, now2⟩]) q <;> rfl
  · rintro rfl d hd hnd
    rcases List.mem_append.mp hd with h1 | h1
    · exact absurd h1 hnd
    · have : d = ⟨u, c, now1, now1⟩ := by simpa using h1
      subst this
      rfl

/-- Witness for the amended C7: a concrete allocation in which both clock
readings are 5, inserted at the end of the empty store. -/
theorem updated_at_second_reading_witness :
    [(⟨"http://example.com", "AAAAAAA", 5, 5⟩ : Doc)] =
      ([] : Store) ++ [⟨"http://example.com", "AAAAAAA", 5, 5⟩] :=
  (updated_at_second_reading (fun _ => "AAAAAAA") 5 5 "http://example.com" [] 1
    "AAAAAAA" [⟨"http://example.com", "AAAAAAA", 5, 5⟩] rfl).1

/-- C2: starting from any store with pairwise-distinct short codes (the
empty store included), after any sequence of successful shorten calls the
returned codes are pairwise distinct, and the resulting store still holds
at most one document per short code. The hypothesis covers every reachable
intermediate state, since each such state is the final store of a shorter
run. -/
theorem sequential_allocations_unique (calls : List AllocCall) (store : Store)
    (cs : List String) (store' : Store)
    (hstart : (codes store).Nodup)
    (h : run_allocs calls store = some (cs, store')) :
    cs.Nodup ∧ (codes store').Nodup := by
  have h1 := run_allocs_codes calls store cs store' h
  have h2 := run_allocs_nodup calls store cs store' h hstart
  refine ⟨?_, h2⟩
  rw [h1] at h2
  exact h2.of_append_right

/-- Witness for C2: two successful allocations into the empty store yield
the distinct codes "AAAAAAA" and "BBBBBBB". -/
theorem sequential_allocations_unique_witness :
    (["AAAAAAA", "BBBBBBB"] : List String).Nodup ∧
      (codes [⟨"http://a.example", "AAAAAAA", 0, 0⟩,
              ⟨"http://b.example", "BBBBBBB", 1, 1⟩]).Nodup :=
  sequential_allocations_unique
    [⟨fun _ => "AAAAAAA", 0, 0, "http://a.example", 1⟩,
     ⟨fun _ => "BBBBBBB", 1, 1, "http://b.example", 1⟩]
    [] ["AAAAAAA", "BBBBBBB"]
    [⟨"http://a.example", "AAAAAAA", 0, 0⟩, ⟨"http://b.example", "BBBBBBB", 1, 1⟩]
    (by simp [codes]) rfl

/-- C5: `generate_id` with the default length 7 always returns a string of
exactly 7 characters, each drawn from the 62-symbol alphabet of letters and
digits (which has 62 pairwise-distinct alphanumeric symbols); consequently,
when the shorten core draws its candidates from `generate_id` at length 7,
every accepted short code has exactly length 7 and uses only alphabet
characters. -/
theorem shorten_code_shape (choice : Nat → Nat → Fin 62) (now1 now2 : Nat)
    (u : String) (store : Store) (fuel : Nat) (c : String) (store' : Store)
    (h : url_shorten_core (fun n => generate_id (choice n) 7) now1 now2 u store fuel =
      some (c, store')) :
    base62.length = 62 ∧ base62.Nodup ∧ (∀ a ∈ base62, a.isAlpha ∨ a.isDigit) ∧
    (∀ ch : Nat → Fin 62, (generate_id ch 7).length = 7 ∧
        ∀ a ∈ (generate_id ch 7).data, a ∈ base62) ∧
    c.length = 7 ∧ (∀ a ∈ c.data, a ∈ base62) := by
  obtain ⟨j, hj⟩ := url_shorten_core_code_mem _ now1 now2 u store fuel c store' h
  subst hj
  exact ⟨base62_length, by decide, by decide,
    fun ch => generate_id_shape ch 7,
    (generate_id_shape (choice j) 7).1, (generate_id_shape (choice j) 7).2⟩

/-- Witness for C5 at the constant draw 0, which generates "aaaaaaa". -/
theorem shorten_code_shape_witness : ("aaaaaaa" : String).length = 7 :=
  (shorten_code_shape (fun _ _ => ⟨0, by decide⟩) 0 0 "http://example.com" [] 1
    "aaaaaaa" [⟨"http://example.com", "aaaaaaa", 0, 0⟩] rfl).2.2.2.2.1

/-- C6: resolving a code with no document in the store returns the 404
not-found outcome (a value, not an unhandled exception in the model), and
resolving a code whose document is present redirects to that document's
stored original URL. -/
theorem resolve_absent_and_present (code : String) (store : Store) :
    (find_one store code = none →
      (url_resolve code store).1 = ResolveResult.notFound (code ++ " not found")) ∧
    ∀ d, find_one store code = some d →
      (url_resolve code store).1 = ResolveResult.redirect d.original_url := by
  constructor
  · intro h
    simp [url_resolve, h]
  · intro d h
    simp [url_resolve, h]

/-- Witness for C6: a store holding one document, probed at an absent and
at a present code. -/
theorem resolve_absent_and_present_witness :
    (url_resolve "doesNotExist" [⟨"http://a.example", "AAAAAAA", 0, 0⟩]).1 =
      ResolveResult.notFound "doesNotExist not found" ∧
    (url_resolve "AAAAAAA" [⟨"http://a.example", "AAAAAAA", 0, 0⟩]).1 =
      ResolveResult.redirect "http://a.example" :=
  ⟨(resolve_absent_and_present "doesNotExist"
      [⟨"http://a.example", "AAAAAAA", 0, 0⟩]).1 rfl,
   (resolve_absent_and_present "AAAAAAA"
      [⟨"http://a.example", "AAAAAAA", 0, 0⟩]).2
      ⟨"http://a.example", "AAAAAAA", 0, 0⟩ rfl⟩

/-- C8: the resolver never mutates the store — the store it threads out is
the one it was given — so resolving the same code again yields the
identical outcome (in particular the identical original URL) as long as no
allocation intervenes. -/
theorem resolve_pure (code : String) (store : Store) :
    (url_resolve code store).2 = store ∧
    url_resolve code ((url_resolve code store).2) = url_resolve code store := by
  have h2 : (url_resolve code store).2 = store := by
    unfold url_resolve
    cases find_one store code <;> rfl
  exact ⟨h2, by rw [h2]⟩

/-- C9: when URL validation fails, the shorten endpoint answers with the
400 bad-request outcome built from the offending input, and the store it
returns is exactly the store it was given — the rejection happens before
the endpoint performs any store operation (the validation check at line 67
precedes the first `find_one` at line 76). -/
theorem invalid_url_rejected (validator : String → Bool) (gen : Nat → String)
    (now1 now2 : Nat) (host u : String) (store : Store) (fuel : Nat)
    (h : validator u = false) :
    url_shorten validator gen now1 now2 host u store fuel =
      some (ShortenResult.badRequest (u ++ " is not a valid url"), store) := by
  simp [url_shorten, h]

/-- Witness for C9 with a validator rejecting everything. -/
theorem invalid_url_rejected_witness :
    url_shorten (fun _ => false) (fun _ => "AAAAAAA") 0 0 "localhost:8000"
        "not a url" [⟨"http://a.example", "AAAAAAA", 0, 0⟩] 5 =
      some (ShortenResult.badRequest "not a url is not a valid url",
        [⟨"http://a.example", "AAAAAAA", 0, 0⟩]) :=
  invalid_url_rejected (fun _ => false) (fun _ => "AAAAAAA") 0 0 "localhost:8000"
    "not a url" [⟨"http://a.example", "AAAAAAA", 0, 0⟩] 5 rfl

/-- C10: on success the shorten endpoint's `short_url` field is not the
bare 7-character code: it is the request's Host header concatenated with
"/r/" and the accepted code, and it always differs from the bare code (its
length exceeds the code's by at least the 3 characters of "/r/"). -/
theorem shorten_response_full_url (validator : String → Bool) (gen : Nat → String)
    (now1 now2 : Nat) (host u : String) (store : Store) (fuel : Nat)
    (resp : String) (store' : Store)
    (h : url_shorten validator gen now1 now2 host u store fuel =
      some (ShortenResult.created resp, store')) :
    ∃ c, url_shorten_core gen now1 now2 u store fuel = some (c, store') ∧
      resp = host ++ "/r/" ++ c ∧ resp ≠ c := by
  cases hv : validator u with
  | false => simp [url_shorten, hv] at h
  | true =>
      cases hc : url_shorten_core gen now1 now2 u store fuel with
      | none => simp [url_shorten, hv, hc] at h
      | some p =>
          obtain ⟨c, store1⟩ := p
          simp only [url_shorten, hv, if_true, hc, Option.some.injEq,
            Prod.mk.injEq, ShortenResult.created.injEq] at h
          obtain ⟨h1, rfl⟩ := h
          subst h1
          refine ⟨c, rfl, rfl, ?_⟩
          intro heq
          have hlen := congrArg String.length heq
          rw [String.length_append, String.length_append] at hlen
          have h3 : ("/r/" : String).length = 3 := rfl
          rw [h3] at hlen
          omega

/-- Witness for C10 at a concrete request whose Host header is
"localhost:8000". -/
theorem shorten_response_full_url_witness :
    ("localhost:8000/r/AAAAAAA" : String) ≠ "AAAAAAA" := by
  obtain ⟨c, hcore, heq, hne⟩ := shorten_response_full_url (fun _ => true)
    (fun _ => "AAAAAAA") 0 0 "localhost:8000" "http://example.com" [] 1
    "localhost:8000/r/AAAAAAA" [⟨"http://example.com", "AAAAAAA", 0, 0⟩] rfl
  have h2 : url_shorten_core (fun _ => "AAAAAAA") 0 0 "http://example.com" [] 1 =
      some ("AAAAAAA", [⟨"http://example.com", "AAAAAAA", 0, 0⟩]) := rfl
  have h3 := hcore.symm.trans h2
  simp only [Option.some.injEq, Prod.mk.injEq] at h3
  rw [h3.1] at hne
  exact hne
